import Mathlib

/-!
Verification development for the DSSAT viewer file-parsing core
(`src/data/dssat_io.py` and `src/config.py`).

The Python parsing functions are shallowly embedded as executable Lean
functions over lists of lines (a file's `readlines()` result).  Tables
(pandas `DataFrame`s) are modelled row-wise: a list of column names and a
list of rows, each row a list of cells.  Cells are missing (`None` / NaN /
NaT), text, exact rationals (modelling the numeric dtypes; equality of a
parsed decimal literal with the same literal holds in both models), or
calendar dates (modelling `Timestamp`).

String primitives (`strip`, `split`, `startswith`, slicing, `upper`,
`zfill`) are re-implemented over character lists following Python's
semantics on the ASCII inputs these files contain.
-/

namespace DSSAT

/-! ## String primitives (Python semantics over character lists) -/

/-- Python whitespace test for `str.strip` / `str.split` (ASCII subset). -/
def chWs (c : Char) : Bool :=
  c == ' ' || c == '\t' || c == '\n' || c == '\r' || c == '\x0b' || c == '\x0c'

/-- Left-trim whitespace characters. -/
def trimLeftCs (cs : List Char) : List Char := cs.dropWhile chWs

/-- `str.strip()`. -/
def pyStrip (s : String) : String :=
  ⟨(trimLeftCs (trimLeftCs s.data).reverse).reverse⟩

/-- Is `p` a character-list prefix of `s`? -/
def listPre : List Char → List Char → Bool
  | [], _ => true
  | _ :: _, [] => false
  | a :: as, b :: bs => a == b && listPre as bs

/-- `str.startswith(p)`. -/
def startsWithS (s p : String) : Bool := listPre p.data s.data

/-- Does `hay` contain `needle` as a contiguous substring (`needle in hay`)? -/
def containsSubCs : List Char → List Char → Bool
  | [], needle => needle.isEmpty
  | c :: cs, needle => listPre needle (c :: cs) || containsSubCs cs needle

/-- Python `needle in hay` for strings. -/
def containsSub (hay needle : String) : Bool := containsSubCs hay.data needle.data

/-- `str.lstrip(c)` for a single character set member. -/
def lstripChar (s : String) (c : Char) : String := ⟨s.data.dropWhile (· == c)⟩

/-- Helper for `str.split()`: accumulate the current token (reversed). -/
def splitWsGo : List Char → List Char → List String
  | [], acc => if acc.isEmpty then [] else [⟨acc.reverse⟩]
  | c :: cs, acc =>
    if chWs c then
      if acc.isEmpty then splitWsGo cs [] else ⟨acc.reverse⟩ :: splitWsGo cs []
    else splitWsGo cs (c :: acc)

/-- `str.split()` (split on whitespace runs, no empty tokens). -/
def splitWs (s : String) : List String := splitWsGo s.data []

/-- ASCII uppercase of one character. -/
def upChar (c : Char) : Char :=
  if 'a' ≤ c && c ≤ 'z' then Char.ofNat (c.toNat - 32) else c

/-- `str.upper()` (ASCII). -/
def toUpperS (s : String) : String := ⟨s.data.map upChar⟩

/-- Python string slice `s[a:b]` for nonnegative bounds. -/
def pySlice (s : String) (a b : Nat) : String := ⟨(s.data.drop a).take (b - a)⟩

/-- `str.zfill(w)`: left-pad with zeros to width `w`, keeping a leading sign. -/
def zfill (s : String) (w : Nat) : String :=
  match s.data with
  | '-' :: rest =>
    if rest.length + 1 < w then ⟨'-' :: (List.replicate (w - (rest.length + 1)) '0' ++ rest)⟩ else s
  | '+' :: rest =>
    if rest.length + 1 < w then ⟨'+' :: (List.replicate (w - (rest.length + 1)) '0' ++ rest)⟩ else s
  | cs =>
    if cs.length < w then ⟨List.replicate (w - cs.length) '0' ++ cs⟩ else s

/-- Digit test. -/
def isDig (c : Char) : Bool := '0' ≤ c && c ≤ '9'

/-- `str.isdigit()` (ASCII): nonempty and all digits. -/
def isDigitS (s : String) : Bool := !s.data.isEmpty && s.data.all isDig

/-- Numeric value of a digit list (most significant first). -/
def digitsVal (cs : List Char) : Nat := cs.foldl (fun acc c => 10 * acc + (c.toNat - 48)) 0

/-- Parse a plain decimal literal (optional sign, digits, optional point and
digits) into an exact rational, as `float()` / `pandas.to_numeric` accept it.
Scientific notation is not modelled; the files hold plain decimals. -/
def parseDecimal (s : String) : Option ℚ :=
  let cs := s.data
  let signed : Bool × List Char :=
    match cs with
    | '-' :: t => (true, t)
    | '+' :: t => (false, t)
    | _ => (false, cs)
  let ip := signed.2.takeWhile isDig
  let rest := signed.2.dropWhile isDig
  let core : Option ℚ :=
    match rest with
    | [] => if ip.isEmpty then none else some ((digitsVal ip : ℚ))
    | '.' :: fp =>
      if fp.all isDig && !(ip.isEmpty && fp.isEmpty) then
        some (mkRat (digitsVal ip * 10 ^ fp.length + digitsVal fp) (10 ^ fp.length))
      else none
    | _ => none
  core.map (fun q => if signed.1 then -q else q)

/-- Render an integer-valued rational the way `astype(str)` renders an int64
cell; non-integer rationals render in a form that never parses as `%Y%j`
(matching the fact that a fractional rendering never parses there either). -/
def renderNum (q : ℚ) : String :=
  if q.den = 1 then toString q.num else toString q.num ++ "/" ++ toString q.den

/-! ## Calendar dates (the `%Y%j` ordinal convention) -/

/-- A calendar date (year, month, day). -/
structure Date where
  year : Nat
  month : Nat
  day : Nat
deriving DecidableEq, Repr

/-- Gregorian leap-year test. -/
def isLeap (y : Nat) : Bool := (y % 4 == 0 && y % 100 != 0) || y % 400 == 0

/-- Month lengths for a (non-)leap year. -/
def monthLens (leap : Bool) : List Nat :=
  [31, if leap then 29 else 28, 31, 30, 31, 30, 31, 31, 30, 31, 30, 31]

/-- Walk the month lengths to locate a day-of-year. -/
def findMonth : List Nat → Nat → Nat → Nat × Nat
  | [], m, d => (m, d)
  | len :: rest, m, d => if d ≤ len then (m, d) else findMonth rest (m + 1) (d - len)

/-- Days in a year. -/
def daysInYear (y : Nat) : Nat := if isLeap y then 366 else 365

/-- Convert year + ordinal day to a calendar date (the `%j` convention,
day 1 = Jan 1); out-of-range ordinals yield `none`. -/
def ordinalToDate (y doy : Nat) : Option Date :=
  if 1 ≤ doy && doy ≤ daysInYear y then
    let md := findMonth (monthLens (isLeap y)) 1 doy
    some ⟨y, md.1, md.2⟩
  else none

/-- Parse a concatenated `YYYYDDD` string as `strptime` with format `%Y%j`
does on the strings this code builds (4-digit year, zero-filled 3-digit
ordinal); anything else fails, i.e. `errors="coerce"` yields NaT. -/
def parseYj (s : String) : Option Date :=
  let cs := s.data
  if cs.length = 7 && cs.all isDig then
    ordinalToDate (digitsVal (cs.take 4)) (digitsVal (cs.drop 4))
  else none

/-- Left-pad a number-of-day rendering with `zfill 3`. -/
def zfill3 (s : String) : String := zfill s 3

/-- Render a date as the canonical `YYYY-MM-DD` string (`strftime`). -/
def pad2 (n : Nat) : String := if n < 10 then "0" ++ toString n else toString n

/-- ISO rendering used by `strftime("%Y-%m-%d")`. -/
def renderISO (d : Date) : String :=
  toString d.year ++ "-" ++ pad2 d.month ++ "-" ++ pad2 d.day

/-! ## Cells and tables -/

/-- One table cell: missing (None / NaN / NaT), a text value, an exact
numeric value, or a date (`Timestamp`). -/
inductive Cell
  | missing
  | text (s : String)
  | num (q : ℚ)
  | date (d : Date)
deriving DecidableEq, Repr

/-- A table: ordered column names and ordered rows.  Mirrors a pandas
`DataFrame` with (possibly duplicate) string column labels. -/
structure DF where
  names : List String
  rows : List (List Cell)
deriving DecidableEq, Repr

/-- Cell at index `j` of a row, missing when out of range. -/
def getCell (r : List Cell) (j : Nat) : Cell := r.getD j Cell.missing

/-- A row of length `n` described by a cell-valued function. -/
def normRow (n : Nat) (f : Nat → Cell) : List Cell := (List.range n).map f

/-- First index of a column name. -/
def firstIdx : List String → String → Option Nat
  | [], _ => none
  | m :: rest, n => if m = n then some 0 else (firstIdx rest n).map (· + 1)

/-- The cells of the first column with name `n` (as `df[n]` reads a
unique-label column; for duplicate labels the first occurrence). -/
def getColCells (df : DF) (n : String) : List Cell :=
  match firstIdx df.names n with
  | some j => df.rows.map (fun r => getCell r j)
  | none => []

/-- Map with index access. -/
def idxMap (f : Nat → α → β) : Nat → List α → List β
  | _, [] => []
  | i, a :: as => f i a :: idxMap f (i + 1) as

/-- Rewrite every cell through a name- and value-aware function
(column labels and row count unchanged). -/
def mapTable (df : DF) (f : String → Cell → Cell) : DF :=
  ⟨df.names,
   df.rows.map (fun r => normRow df.names.length
     (fun j => f (df.names.getD j "") (getCell r j)))⟩

/-- `df[n] = scalar`: replace every column labelled `n` by the constant, or
append a new column when the label is absent. -/
def setColConst (df : DF) (n : String) (v : Cell) : DF :=
  if n ∈ df.names then
    mapTable df (fun nm c => if nm = n then v else c)
  else
    ⟨df.names ++ [n],
     df.rows.map (fun r => normRow (df.names.length + 1)
       (fun j => if j = df.names.length then v else getCell r j))⟩

/-- `df[n] = series`: replace every column labelled `n` by the given cells
(per row index), or append the column when the label is absent. -/
def setColList (df : DF) (n : String) (vs : List Cell) : DF :=
  if n ∈ df.names then
    ⟨df.names,
     idxMap (fun i r => normRow df.names.length
       (fun j => if df.names.getD j "" = n then vs.getD i Cell.missing else getCell r j)) 0 df.rows⟩
  else
    ⟨df.names ++ [n],
     idxMap (fun i r => normRow (df.names.length + 1)
       (fun j => if j = df.names.length then vs.getD i Cell.missing else getCell r j)) 0 df.rows⟩

/-- Keep the entries of `l` whose flag is true. -/
def maskList : List α → List Bool → List α
  | [], _ => []
  | _ :: _, [] => []
  | a :: l, b :: f => if b then a :: maskList l f else maskList l f

/-- Keep columns by a per-column flag list (row count unchanged). -/
def filterColsByFlags (df : DF) (flags : List Bool) : DF :=
  ⟨maskList df.names flags,
   df.rows.map (fun r => maskList (normRow df.names.length (getCell r)) flags)⟩

/-- Is a cell missing? -/
def cellIsMissing : Cell → Bool
  | Cell.missing => true
  | _ => false

/-- `df.loc[:, df.notna().any()]`: drop columns that are entirely missing. -/
def dropAllMissingCols (df : DF) : DF :=
  filterColsByFlags df
    ((List.range df.names.length).map
      (fun j => df.rows.any (fun r => !cellIsMissing (getCell r j))))

/-- `df.drop(columns=[n])` (drops every column with that label). -/
def dropColsNamed (df : DF) (n : String) : DF :=
  filterColsByFlags df (df.names.map (fun m => !(m == n)))

/-- `df.rename(columns={old: new})`. -/
def renameCol (df : DF) (old new : String) : DF :=
  ⟨df.names.map (fun n => if n = old then new else n), df.rows⟩

/-- `pd.concat(dfs, ignore_index=True)`: identical column lists stack rows
directly; otherwise an outer union by label, which pandas performs only when
each frame's labels are unique (it raises — here `none` — on duplicates). -/
def unionNames (dfs : List DF) : List String :=
  dfs.foldl (fun acc d => acc ++ d.names.filter (fun n => !(acc.contains n))) []

/-- Reindex a row of `df` to the unioned label list. -/
def reindexRow (allNames : List String) (df : DF) (r : List Cell) : List Cell :=
  allNames.map (fun n =>
    match firstIdx df.names n with
    | some j => getCell r j
    | none => Cell.missing)

/-- `pd.concat(dfs, ignore_index=True)` (see `unionNames`). -/
def pdConcat (dfs : List DF) : Option DF :=
  match dfs with
  | [] => none
  | d :: rest =>
    if rest.all (fun e => e.names == d.names) then
      some ⟨d.names, ((d :: rest).map DF.rows).flatten⟩
    else if (d :: rest).all (fun e => decide e.names.Nodup) then
      some ⟨unionNames (d :: rest),
        (d :: rest).flatMap (fun e => e.rows.map (reindexRow (unionNames (d :: rest)) e))⟩
    else none

/-! ## Modelled collaborators absent from `src/`

`standardize_dtypes` and `unified_date_convert` are imported from
`data/data_processing.py`, which is not part of the sources here; they are
modelled from the specification. -/

/-- Treatment-number alias column labels (§4.4 "known identifier columns"). -/
def trtAliases : List String := ["TRNO", "TRT", "TR", "TN"]

/-- Does a cell count as numeric-convertible (missing cells pass)? -/
def cellParsesNum : Cell → Bool
  | Cell.missing => true
  | Cell.num _ => true
  | Cell.text s => (parseDecimal s).isSome
  | Cell.date _ => false

/-- Numeric conversion of one cell (text parsed when possible). -/
def cellToNum : Cell → Cell
  | Cell.text s =>
    match parseDecimal s with
    | some q => Cell.num q
    | none => Cell.text s
  | c => c

/-- Whole-column numeric conversion: convert only when every cell is
numeric-convertible, else leave the column as is. -/
def colToNumWhole (cells : List Cell) : List Cell :=
  if cells.all cellParsesNum then cells.map cellToNum else cells

/-- Rebuild a table column-wise through a per-column function (labels and
row count unchanged). -/
def colWise (df : DF) (f : String → List Cell → List Cell) : DF :=
  let newCols := idxMap (fun j n => f n (df.rows.map (fun r => getCell r j))) 0 df.names
  ⟨df.names,
   (List.range df.rows.length).map
     (fun i => normRow df.names.length (fun j => getCell (newCols.getD j []) i))⟩

/-- Modelled from the spec: `standardize_dtypes` (in `data/data_processing.py`,
absent from `src/`).  §4.4: "Standardize data types per column: attempt
numeric conversion for every column except known identifier columns
(treatment-number aliases); columns that fail full numeric conversion remain
text."  Column labels and row count are unchanged. -/
def standardize_dtypes (df : DF) : DF :=
  colWise df (fun n cells => if n ∈ trtAliases then cells else colToNumWhole cells)

/-- Modelled from the spec: `unified_date_convert` (in
`data/data_processing.py`, absent from `src/`).  §4.5: observed-data tables
reformat the date column and drop rows whose date parsing failed.  Modelled
as parsing the DSSAT `YYDOY` / `YYYYDDD` ordinal forms; any string it cannot
parse yields `none` (NaT). -/
def unified_date_convert (s : String) : Option Date :=
  let cs := (pyStrip s).data
  if cs.length = 5 && cs.all isDig then
    let yy := digitsVal (cs.take 2)
    ordinalToDate (if yy < 100 then 2000 + yy else yy) (digitsVal (cs.drop 2))
  else if cs.length = 7 && cs.all isDig then
    ordinalToDate (digitsVal (cs.take 4)) (digitsVal (cs.drop 4))
  else none

/-- `str(x)` rendering of a cell, as fed to `unified_date_convert`. -/
def cellRender : Cell → String
  | Cell.missing => "nan"
  | Cell.text s => s
  | Cell.num q => renderNum q
  | Cell.date d => renderISO d

/-! ## Row reconciliation (§4.3) -/

/-- Keep/skip test of `process_treatment_block` (line 430): a data line is
kept when its stripped form is nonempty and the raw line does not start
with `*` (the comment test is on the untrimmed line). -/
def keepLine (l : String) : Bool := !(pyStrip l == "") && !(startsWithS l "*")

/-- Row reconciliation of `process_treatment_block` (lines 432-441):
truncate excess tokens, right-pad a deficit with `None`. -/
def reconcile (headers : List String) (values : List String) : List Cell :=
  if values.length > headers.length then
    (values.take headers.length).map Cell.text
  else
    values.map Cell.text ++ List.replicate (headers.length - values.length) Cell.missing

/-- Row reconciliation of `read_forage_file` (lines 134-148): identical
truncate/pad policy, padding with `None`. -/
def reconcileForage (headers : List String) (values : List String) : List Cell :=
  if values.length > headers.length then
    (values.take headers.length).map Cell.text
  else
    values.map Cell.text ++ List.replicate (headers.length - values.length) Cell.missing

/-! ## `process_treatment_block` and `read_file` -/

/-- Index of the first line satisfying a test. -/
def findIdxO (p : α → Bool) : List α → Option Nat
  | [] => none
  | a :: as => if p a then some 0 else (findIdxO p as).map (· + 1)

/-- Header tokens of a treatment block (line 425). -/
def ptbHeaders (lines : List String) (hIdx : Nat) : List String :=
  splitWs (pyStrip (lstripChar (lines.getD hIdx "") '@'))

/-- The data lines a treatment block keeps (lines 429-430). -/
def ptbKept (lines : List String) (hIdx : Nat) : List String :=
  (lines.drop (hIdx + 1)).filter keepLine

/-- Post-processing of a block's table (lines 448-457): attach `TRT` from
the second token of a `TREATMENT` line when one exists (an index error is
swallowed), then drop a `CR` column when present. -/
def ptbPost (lines : List String) (df : DF) : DF :=
  let df1 :=
    match lines.find? (fun l => startsWithS (toUpperS (pyStrip l)) "TREATMENT") with
    | some tl =>
      match splitWs tl with
      | _ :: t :: _ => setColConst df "TRT" (Cell.text t)
      | _ => df
    | none => df
  if "CR" ∈ df1.names then dropColsNamed df1 "CR" else df1

/-- `process_treatment_block(lines)` (dssat_io.py lines 418-463): find the
`@` header, tokenize, reconcile each kept data line, attach a `TRT` column
from a `TREATMENT <n>` line when present, and drop a `CR` column. -/
def process_treatment_block (lines : List String) : Option DF :=
  match findIdxO (fun l => startsWithS l "@") lines with
  | none => none
  | some hIdx =>
    if ((ptbKept lines hIdx).map
        (fun l => reconcile (ptbHeaders lines hIdx) (splitWs l))).isEmpty then none
    else
      some (ptbPost lines
        ⟨ptbHeaders lines hIdx,
         (ptbKept lines hIdx).map (fun l => reconcile (ptbHeaders lines hIdx) (splitWs l))⟩)

/-- Indices of `TREATMENT` marker lines (`read_file` line 379). -/
def treatmentIndices (lines : List String) : List Nat :=
  (idxMap (fun i l => (i, l)) 0 lines).filterMap
    (fun p => if startsWithS (toUpperS (pyStrip p.2)) "TREATMENT" then some p.1 else none)

/-- Cut `lines` into slices `[i_k, i_{k+1})` for consecutive marker indices,
the last slice running to the end. -/
def slicesFrom (lines : List String) : List Nat → List (List String)
  | [] => []
  | [i] => [lines.drop i]
  | i :: j :: rest => ((lines.drop i).take (j - i)) :: slicesFrom lines (j :: rest)

/-- The treatment blocks `read_file` processes (lines 379-392): the marker
slices when markers exist, else the whole file as a single block. -/
def fileBlocks (lines : List String) : List (List String) :=
  let tIdx := treatmentIndices lines
  if tIdx.isEmpty then [lines] else slicesFrom lines tIdx

/-- `DATE` derivation used by `read_file` (lines 400-407) and
`read_forage_file` (lines 207-214): `astype(str)` of the year, `zfill(3)`
of the day-of-year, concatenation, `to_datetime(format="%Y%j",
errors="coerce")`. -/
def deriveDateCell (yc dc : Cell) : Cell :=
  match parseYj (cellRender yc ++ zfill3 (cellRender dc)) with
  | some d => Cell.date d
  | none => Cell.missing

/-- Add the derived `DATE` column when both `YEAR` and `DOY` are present. -/
def addDateColumn (df : DF) : DF :=
  if "YEAR" ∈ df.names && "DOY" ∈ df.names then
    setColList df "DATE"
      ((List.zip (getColCells df "YEAR") (getColCells df "DOY")).map
        (fun p => deriveDateCell p.1 p.2))
  else df

/-- The per-block tables of a file (lines 381-392). -/
def fileDfs (lines : List String) : List DF :=
  (fileBlocks lines).filterMap process_treatment_block

/-- The parsing core of `read_file(file_path)` (lines 377-411), acting on
the lines already read: split into blocks, parse each, concatenate, drop
all-missing columns, standardize dtypes, derive `DATE`. -/
def read_file_core (lines : List String) : Option DF :=
  if (fileDfs lines).isEmpty then none
  else
    match pdConcat (fileDfs lines) with
    | none => none
    | some c => some (addDateColumn (standardize_dtypes (dropAllMissingCols c)))

/-- Data lines of one block that the code keeps: lines after the `@` header
passing `keepLine`; a block with no header contributes no data lines. -/
def blockKept (lines : List String) : Nat :=
  match findIdxO (fun l => startsWithS l "@") lines with
  | none => 0
  | some hIdx => ((lines.drop (hIdx + 1)).filter keepLine).length

/-- Total number of kept data lines across the blocks of a file. -/
def codeKeptCount (lines : List String) : Nat :=
  ((fileBlocks lines).map blockKept).sum

/-! ## `read_forage_file` -/

/-- Python slice `lines[start-5:start]` (negative-start wraparound
included), the context window scanned for a `TREATMENT` line. -/
def pyWindow (lines : List String) (start : Nat) : List String :=
  if 5 ≤ start then (lines.drop (start - 5)).take 5
  else
    let len := lines.length
    let eff := if len + start < 5 then 0 else len + start - 5
    (lines.drop eff).take (start - eff)

/-- Forage header test (lines 113-115): stripped line starts with `@`, or
starts with `*` and the raw line contains `YEAR`. -/
def forageHeaderLine (l : String) : Bool :=
  startsWithS (pyStrip l) "@" || (startsWithS (pyStrip l) "*" && containsSub l "YEAR")

/-- Successive `(start, next)` index pairs for forage blocks. -/
def foragePairs (len : Nat) : List Nat → List (Nat × Nat)
  | [] => []
  | [i] => [(i, len)]
  | i :: j :: rest => (i, j) :: foragePairs len (j :: rest)

/-- One forage block (lines 122-172): headers from the stripped header line
with `@` then `*` left-stripped; data lines stripped, kept unless empty or
starting with `*` or `@`, reconciled; `TRT` attached from a digit token of
a `TREATMENT` context line in the preceding window. -/
def forageBlock (lines : List String) (start next : Nat) : Option DF :=
  let headerLine := pyStrip (lines.getD start "")
  let headers := splitWs (pyStrip (lstripChar (lstripChar headerLine '@') '*'))
  let dataLines :=
    (((lines.drop (start + 1)).take (next - (start + 1))).map pyStrip).filter
      (fun t => !(t == "") && !(startsWithS t "*") && !(startsWithS t "@"))
  let rows := dataLines.map (fun t => reconcileForage headers (splitWs t))
  if rows.isEmpty then none
  else
    let df : DF := ⟨headers, rows⟩
    let trtLines :=
      (pyWindow lines start).filterMap
        (fun l => if containsSub (toUpperS l) "TREATMENT" then some (pyStrip l) else none)
    match trtLines with
    | tl :: _ =>
      match (splitWs tl).find? isDigitS with
      | some t => some (setColConst df "TRT" (Cell.text t))
      | none => some df
    | [] => some df

/-- Ensure-`TRT` step of `read_forage_file` (lines 192-200): synthesize the
treatment-id column from `TRNO`, then `TR`, else the constant `"1"`. -/
def ensureTRT (df : DF) : DF :=
  if "TRT" ∈ df.names then df
  else if "TRNO" ∈ df.names then setColList df "TRT" (getColCells df "TRNO")
  else if "TR" ∈ df.names then setColList df "TRT" (getColCells df "TR")
  else setColConst df "TRT" (Cell.text "1")

/-- Numeric conversion loop of `read_forage_file` (lines 202-205):
`to_numeric(errors="ignore")` per column, skipping `TRT`, `TRNO`, `TR`. -/
def forageNumeric (df : DF) : DF :=
  colWise df (fun n cells =>
    if n ∈ (["TRT", "TRNO", "TR"] : List String) then cells else colToNumWhole cells)

/-- Indices of forage header lines (lines 113-115). -/
def forageHeaderIdx (lines : List String) : List Nat :=
  (idxMap (fun i l => (i, l)) 0 lines).filterMap
    (fun p => if forageHeaderLine p.2 then some p.1 else none)

/-- Per-block tables of a forage file. -/
def forageDfs (lines : List String) : List DF :=
  (foragePairs lines.length (forageHeaderIdx lines)).filterMap
    (fun p => forageBlock lines p.1 p.2)

/-- The parsing core of `read_forage_file` (lines 109-218), acting on the
lines already read. -/
def read_forage_core (lines : List String) : Option DF :=
  if (forageHeaderIdx lines).isEmpty then none
  else if (forageDfs lines).isEmpty then none
  else
    match pdConcat (forageDfs lines) with
    | none => none
    | some c =>
      some (addDateColumn (forageNumeric (ensureTRT (standardize_dtypes (dropAllMissingCols c)))))

/-! ## `read_treatments` -/

/-- The parsing core of `read_treatments` (lines 292-314): the section from
the `*TREATMENT` marker to the next `*` line; keep lines starting with a
space; number from characters `[0:3]`, name from `[9:36]`, both stripped. -/
def read_treatments_core (lines : List String) : Option DF :=
  match findIdxO (fun l => startsWithS l "*TREATMENT") lines with
  | none => none
  | some b =>
    let e :=
      match (idxMap (fun i l => (i, l)) 0 lines).find?
          (fun p => startsWithS p.2 "*" && decide (b < p.1)) with
      | some p => p.1
      | none => lines.length
    let kept := ((lines.drop b).take (e - b)).filter (fun l => startsWithS l " ")
    some ⟨["TR", "TNAME"],
      kept.map (fun l => [Cell.text (pyStrip (pySlice l 0 3)), Cell.text (pyStrip (pySlice l 9 36))])⟩

/-! ## `read_observed_data` -/

/-- Header tokens of the observed-data file at a known header index:
stripped, `@`-left-stripped, split, uppercased (lines 510-511). -/
def observedHeadersAt (content : List String) (h : Nat) : List String :=
  (splitWs (lstripChar (pyStrip (content.getD h "")) '@')).map toUpperS

/-- Header tokens of the observed-data file (lines 501-511). -/
def observedHeaders (content : List String) : List String :=
  match findIdxO (fun l => startsWithS (pyStrip l) "@") content with
  | none => []
  | some h => observedHeadersAt content h

/-- Token rows of the observed-data file (lines 513-517). -/
def observedRawRows (content : List String) (h : Nat) : List (List String) :=
  ((content.drop (h + 1)).filter keepLine).map splitWs

/-- The `DataFrame(data_rows, columns=headers)` of line 524 in the case the
constructor accepts (inferred width equals the label count); rows shorter
than the width are padded with missing values. -/
def observedBuild (content : List String) (h : Nat) : DF :=
  ⟨observedHeadersAt content h,
   (observedRawRows content h).map (fun vs =>
     vs.map Cell.text ++
       List.replicate ((observedHeadersAt content h).length - vs.length) Cell.missing)⟩

/-- Alias renaming of `read_observed_data` (lines 525-527): `TRNO`, `TR`
and `TN` each renamed to `TRT`. -/
def renameAliasesToTRT (df : DF) : DF :=
  renameCol (renameCol (renameCol df "TRNO" "TRT") "TR" "TRT") "TN" "TRT"

/-- Date stage of `read_observed_data` (lines 532-535): convert the `DATE`
column via `unified_date_convert`, render `YYYY-MM-DD`, and drop the rows
whose conversion failed. -/
def observedDateStage (df : DF) : DF :=
  match firstIdx df.names "DATE" with
  | none => df
  | some j =>
    ⟨df.names,
     df.rows.filterMap (fun r =>
       (unified_date_convert (cellRender (getCell r j))).map (fun d =>
         normRow df.names.length
           (fun k => if k = j then Cell.text (renderISO d) else getCell r k)))⟩

/-- Treatment-column coercion of `read_observed_data` (lines 538-540):
`astype(str)` on each of `TRNO`, `TRT`, `TR`, `TN` that is present. -/
def observedAliasToStr (df : DF) : DF :=
  colWise df (fun n cells =>
    if n ∈ trtAliases then cells.map (fun c => Cell.text (cellRender c)) else cells)

/-- The table-processing stage of `read_observed_data` (lines 525-540):
alias renaming, all-missing column drop, dtype standardization, date
conversion with row drop, treatment-column text coercion. -/
def observedStage (df : DF) : DF :=
  observedAliasToStr (observedDateStage (standardize_dtypes (dropAllMissingCols
    (renameAliasesToTRT df))))

/-- The parsing core of `read_observed_data` (lines 500-550), acting on the
file content.  The `y_vars` validation keeps only variables already present,
so the final check reduces to `TRT` being a column. -/
def read_observed_core (content : List String) : Option DF :=
  match findIdxO (fun l => startsWithS (pyStrip l) "@") content with
  | none => none
  | some h =>
    if (observedRawRows content h).isEmpty then none
    else if ((observedRawRows content h).map List.length).foldl max 0 ≠
        (observedHeadersAt content h).length then none
    else if "TRT" ∈ (observedStage (observedBuild content h)).names then
      some (observedStage (observedBuild content h))
    else none

/-! ## `read_evaluate_file` numeric stage and the missing-value sentinels -/

/-- The numeric sentinel values of `config.MISSING_VALUES` (config.py line
21): the Python set `{-99, -99.0, -99.9, -99.99, -99.}` collapses the three
equal members `-99`, `-99.0` and `-99.`; `mkRat (-999) 10` is the exact
value -99.9 and `mkRat (-9999) 100` is -99.99. -/
def numSentinels : List ℚ := [-99, mkRat (-999) 10, mkRat (-9999) 100]

/-- The string sentinel members of `config.MISSING_VALUES`: only the string
forms of `-99`, `-99.0` and `-99.9` appear there. -/
def strSentinels : List String := ["-99", "-99.0", "-99.9"]

/-- Membership in `config.MISSING_VALUES` (numeric members compare by
value, as Python `int`/`float` equality does). -/
def isMissingSentinel : Cell → Bool
  | Cell.num q => numSentinels.contains q
  | Cell.text s => strSentinels.contains s
  | _ => false

/-- `pd.to_numeric(col, errors="coerce")` on one cell. -/
def to_numeric_coerce : Cell → Cell
  | Cell.text s =>
    match parseDecimal s with
    | some q => Cell.num q
    | none => Cell.missing
  | Cell.num q => Cell.num q
  | _ => Cell.missing

/-- One `df.replace(val, nan)` pass summed over all sentinels. -/
def replaceSentinel (c : Cell) : Cell := if isMissingSentinel c then Cell.missing else c

/-- The numeric stage of `read_evaluate_file` (lines 763-769): coerce every
column to numeric, then replace each `MISSING_VALUES` member with NaN. -/
def evaluate_numeric_stage (df : DF) : DF :=
  mapTable (mapTable df (fun _ c => to_numeric_coerce c)) (fun _ c => replaceSentinel c)

/-! ## File-system and encoding model (`read_file` lines 352-375,
`read_treatments` lines 282-290) -/

/-- The two encodings the readers know (`config` lines 17-18). -/
inductive Enc
  | utf8
  | latin1
deriving DecidableEq, Repr

/-- Outcome of one attempted `open(...).readlines()` under an encoding. -/
inductive ReadOutcome
  | ok (lines : List String)
  | decodeErr
  | otherErr
deriving DecidableEq, Repr

/-- A file as the readers observe it: whether the path exists, and what a
read under each encoding yields. -/
structure FS where
  present : Bool
  read : Enc → ReadOutcome

/-- `read_file` including its file access (lines 352-375 around the core):
missing path short-circuits; a `UnicodeDecodeError` under utf-8 triggers
one retry with latin-1; any other error (or both decodes failing, or an
empty line list) yields `None` via the outer handler. -/
def read_file_fs (fs : FS) : Option DF :=
  if fs.present = false then none
  else
    match fs.read Enc.utf8 with
    | ReadOutcome.ok ls => if ls.isEmpty then none else read_file_core ls
    | ReadOutcome.decodeErr =>
      match fs.read Enc.latin1 with
      | ReadOutcome.ok ls => if ls.isEmpty then none else read_file_core ls
      | _ => none
    | ReadOutcome.otherErr => none

/-- The encodings `read_file` actually attempts. -/
def read_file_attempts (fs : FS) : List Enc :=
  if fs.present = false then []
  else
    match fs.read Enc.utf8 with
    | ReadOutcome.decodeErr => [Enc.utf8, Enc.latin1]
    | _ => [Enc.utf8]

/-- `read_treatments` including its file access: missing path
short-circuits; the file is opened once with the default encoding and any
error (decode errors included) is swallowed by the outer handler into
`None` — there is no fallback retry. -/
def read_treatments_fs (fs : FS) : Option DF :=
  if fs.present = false then none
  else
    match fs.read Enc.utf8 with
    | ReadOutcome.ok ls => read_treatments_core ls
    | _ => none

/-- The encodings `read_treatments` actually attempts. -/
def read_treatments_attempts (fs : FS) : List Enc :=
  if fs.present = false then [] else [Enc.utf8]

/-! ## List-level infrastructure lemmas -/

theorem idxMap_length (f : Nat → α → β) : ∀ (k : Nat) (l : List α), (idxMap f k l).length = l.length
  | _, [] => rfl
  | k, _ :: as => by simp [idxMap, idxMap_length f (k + 1) as]

theorem idxMap_getElem? (f : Nat → α → β) :
    ∀ (k : Nat) (l : List α) (j : Nat), (idxMap f k l)[j]? = Option.map (f (k + j)) l[j]?
  | _, [], j => by simp [idxMap]
  | _, _ :: _, 0 => by simp [idxMap]
  | k, _ :: as, j + 1 => by
    simp only [idxMap, List.getElem?_cons_succ]
    rw [idxMap_getElem? f (k + 1) as j]
    have hk : k + 1 + j = k + (j + 1) := by omega
    rw [hk]

theorem normRow_length (n : Nat) (f : Nat → Cell) : (normRow n f).length = n := by
  simp [normRow]

theorem getCell_normRow {j n : Nat} (f : Nat → Cell) (h : j < n) :
    getCell (normRow n f) j = f j := by
  simp [getCell, normRow, List.getD_eq_getElem?_getD, List.getElem?_range h]

theorem map_range_getD (vs : List Cell) :
    (List.range vs.length).map (fun j => vs.getD j Cell.missing) = vs := by
  apply List.ext_getElem
  · simp
  · intro i h1 h2
    simp [List.getD_eq_getElem?_getD, List.getElem?_eq_getElem h2]

theorem maskList_sublist : ∀ (l : List α) (f : List Bool), List.Sublist (maskList l f) l
  | [], _ => by simp [maskList]
  | _ :: _, [] => by simp [maskList]
  | a :: l, b :: f => by
    simp only [maskList]
    split
    · exact (maskList_sublist l f).cons₂ a
    · exact (maskList_sublist l f).cons a

theorem mem_of_mem_maskList {l : List α} {f : List Bool} (h : a ∈ maskList l f) : a ∈ l :=
  (maskList_sublist l f).subset h

theorem mem_maskList_map (p : α → Bool) :
    ∀ (l : List α), a ∈ maskList l (l.map p) → p a = true
  | [], h => by simp [maskList] at h
  | x :: l, h => by
    simp only [List.map_cons, maskList] at h
    by_cases hx : p x
    · rw [if_pos hx] at h
      rcases List.mem_cons.mp h with h | h
      · exact h ▸ hx
      · exact mem_maskList_map p l h
    · rw [if_neg hx] at h
      exact mem_maskList_map p l h

theorem firstIdx_eq_none_iff {l : List String} {n : String} : firstIdx l n = none ↔ n ∉ l := by
  induction l with
  | nil => simp [firstIdx]
  | cons m rest ih =>
    simp only [firstIdx, List.mem_cons]
    by_cases hm : m = n
    · simp [hm]
    · simp only [if_neg hm, Option.map_eq_none']
      rw [ih]
      constructor
      · intro h hc
        rcases hc with hc | hc
        · exact hm hc.symm
        · exact h hc
      · intro h hc
        exact h (Or.inr hc)

theorem firstIdx_of_mem {l : List String} {n : String} (h : n ∈ l) :
    ∃ j, firstIdx l n = some j := by
  cases hf : firstIdx l n with
  | none => exact absurd h (firstIdx_eq_none_iff.mp hf)
  | some j => exact ⟨j, rfl⟩

theorem firstIdx_lt_length {l : List String} {n : String} :
    ∀ {j : Nat}, firstIdx l n = some j → j < l.length := by
  induction l with
  | nil => intro j h; simp [firstIdx] at h
  | cons m rest ih =>
    intro j h
    simp only [firstIdx] at h
    by_cases hm : m = n
    · rw [if_pos hm] at h
      cases h
      simp
    · rw [if_neg hm] at h
      rcases Option.map_eq_some'.mp h with ⟨j', hj', rfl⟩
      have := ih hj'
      simp
      omega

theorem firstIdx_getD {l : List String} {n : String} :
    ∀ {j : Nat}, firstIdx l n = some j → l.getD j "" = n := by
  induction l with
  | nil => intro j h; simp [firstIdx] at h
  | cons m rest ih =>
    intro j h
    simp only [firstIdx] at h
    by_cases hm : m = n
    · rw [if_pos hm] at h
      cases h
      simpa using hm
    · rw [if_neg hm] at h
      rcases Option.map_eq_some'.mp h with ⟨j', hj', rfl⟩
      simpa using ih hj'

theorem firstIdx_append_not_mem {l : List String} {n : String} (h : n ∉ l) :
    firstIdx (l ++ [n]) n = some l.length := by
  induction l with
  | nil => simp [firstIdx]
  | cons m rest ih =>
    have hm : m ≠ n := fun hc => h (hc ▸ List.mem_cons_self m rest)
    have hrest : n ∉ rest := fun hc => h (List.mem_cons_of_mem m hc)
    simp [firstIdx, if_neg hm, ih hrest]

/-! ## Table-operation lemmas -/

theorem mapTable_names (df : DF) (f : String → Cell → Cell) :
    (mapTable df f).names = df.names := rfl

theorem mapTable_rows_length (df : DF) (f : String → Cell → Cell) :
    (mapTable df f).rows.length = df.rows.length := by
  simp [mapTable]

theorem colWise_names (df : DF) (f : String → List Cell → List Cell) :
    (colWise df f).names = df.names := rfl

theorem colWise_rows_length (df : DF) (f : String → List Cell → List Cell) :
    (colWise df f).rows.length = df.rows.length := by
  simp [colWise]

theorem standardize_dtypes_names (df : DF) : (standardize_dtypes df).names = df.names := rfl

theorem standardize_dtypes_rows_length (df : DF) :
    (standardize_dtypes df).rows.length = df.rows.length :=
  colWise_rows_length df _

theorem setColConst_rows_length (df : DF) (n : String) (v : Cell) :
    (setColConst df n v).rows.length = df.rows.length := by
  unfold setColConst
  split
  · exact mapTable_rows_length df _
  · simp

theorem setColList_rows_length (df : DF) (n : String) (vs : List Cell) :
    (setColList df n vs).rows.length = df.rows.length := by
  unfold setColList
  split <;> simp [idxMap_length]

theorem setColConst_names (df : DF) (n : String) (v : Cell) :
    (setColConst df n v).names = if n ∈ df.names then df.names else df.names ++ [n] := by
  unfold setColConst
  split <;> simp_all [mapTable]

theorem setColList_names (df : DF) (n : String) (vs : List Cell) :
    (setColList df n vs).names = if n ∈ df.names then df.names else df.names ++ [n] := by
  unfold setColList
  split <;> simp_all

theorem mem_setColConst_names (df : DF) (n : String) (v : Cell) :
    n ∈ (setColConst df n v).names := by
  rw [setColConst_names]
  split
  · assumption
  · simp

theorem mem_setColList_names (df : DF) (n : String) (vs : List Cell) :
    n ∈ (setColList df n vs).names := by
  rw [setColList_names]
  split
  · assumption
  · simp

theorem mem_names_setColList (df : DF) (n m : String) (vs : List Cell) (h : m ∈ df.names) :
    m ∈ (setColList df n vs).names := by
  rw [setColList_names]
  split
  · assumption
  · exact List.mem_append_left _ h

theorem renameCol_names (df : DF) (old new : String) :
    (renameCol df old new).names = df.names.map (fun n => if n = old then new else n) := rfl

theorem renameCol_rows (df : DF) (old new : String) : (renameCol df old new).rows = df.rows := rfl

theorem filterColsByFlags_names (df : DF) (flags : List Bool) :
    (filterColsByFlags df flags).names = maskList df.names flags := rfl

theorem filterColsByFlags_rows_length (df : DF) (flags : List Bool) :
    (filterColsByFlags df flags).rows.length = df.rows.length := by
  simp [filterColsByFlags]

theorem dropAllMissingCols_rows_length (df : DF) :
    (dropAllMissingCols df).rows.length = df.rows.length :=
  filterColsByFlags_rows_length df _

theorem mem_dropAllMissingCols_names {df : DF} {n : String}
    (h : n ∈ (dropAllMissingCols df).names) : n ∈ df.names :=
  mem_of_mem_maskList h

theorem dropColsNamed_rows_length (df : DF) (n : String) :
    (dropColsNamed df n).rows.length = df.rows.length :=
  filterColsByFlags_rows_length df _

theorem not_mem_dropColsNamed (df : DF) (n : String) : n ∉ (dropColsNamed df n).names := by
  intro h
  have := mem_maskList_map (fun m => !(m == n)) df.names h
  simp at this

theorem mem_dropColsNamed_names {df : DF} {n m : String}
    (h : m ∈ (dropColsNamed df n).names) : m ∈ df.names :=
  mem_of_mem_maskList h

theorem addDateColumn_rows_length (df : DF) :
    (addDateColumn df).rows.length = df.rows.length := by
  unfold addDateColumn
  split
  · exact setColList_rows_length df _ _
  · rfl

theorem mem_addDateColumn_names {df : DF} {n : String} (h : n ∈ df.names) :
    n ∈ (addDateColumn df).names := by
  unfold addDateColumn
  split
  · exact mem_names_setColList df _ n _ h
  · exact h

theorem mem_of_mem_addDateColumn_names {df : DF} {n : String}
    (h : n ∈ (addDateColumn df).names) : n ∈ df.names ∨ n = "DATE" := by
  unfold addDateColumn at h
  split at h
  · rw [setColList_names] at h
    split at h
    · exact Or.inl h
    · rcases List.mem_append.mp h with h | h
      · exact Or.inl h
      · simp at h
        exact Or.inr h
  · exact Or.inl h

theorem pdConcat_rows_length {dfs : List DF} {c : DF} (h : pdConcat dfs = some c) :
    c.rows.length = (dfs.map (fun d => d.rows.length)).sum := by
  cases dfs with
  | nil => simp [pdConcat] at h
  | cons d rest =>
    simp only [pdConcat] at h
    by_cases h1 : (rest.all fun e => e.names == d.names) = true
    · rw [if_pos h1] at h
      cases h
      simp [Function.comp_def]
    · rw [if_neg h1] at h
      by_cases h2 : ((d :: rest).all fun e => decide e.names.Nodup) = true
      · rw [if_pos h2] at h
        cases h
        simp [List.length_flatMap, Function.comp_def]
      · rw [if_neg h2] at h
        cases h

theorem unionNames_aux {n : String} :
    ∀ (dfs : List DF) (acc : List String),
      n ∈ dfs.foldl (fun acc d => acc ++ d.names.filter (fun m => !(acc.contains m))) acc →
      n ∈ acc ∨ ∃ d ∈ dfs, n ∈ d.names
  | [], acc, h => Or.inl h
  | d :: rest, acc, h => by
    rcases unionNames_aux rest _ h with h' | ⟨e, he, hn⟩
    · rcases List.mem_append.mp h' with h'' | h''
      · exact Or.inl h''
      · exact Or.inr ⟨d, List.mem_cons_self d rest, (List.mem_filter.mp h'').1⟩
    · exact Or.inr ⟨e, List.mem_cons_of_mem d he, hn⟩

theorem pdConcat_names_mem {dfs : List DF} {c : DF} {n : String} (h : pdConcat dfs = some c)
    (hn : n ∈ c.names) : ∃ d ∈ dfs, n ∈ d.names := by
  cases dfs with
  | nil => simp [pdConcat] at h
  | cons d rest =>
    simp only [pdConcat] at h
    by_cases h1 : (rest.all fun e => e.names == d.names) = true
    · rw [if_pos h1] at h
      cases h
      exact ⟨d, List.mem_cons_self d rest, hn⟩
    · rw [if_neg h1] at h
      by_cases h2 : ((d :: rest).all fun e => decide e.names.Nodup) = true
      · rw [if_pos h2] at h
        cases h
        rcases unionNames_aux (d :: rest) [] hn with h' | h'
        · simp at h'
        · exact h'
      · rw [if_neg h2] at h
        cases h

/-! ## Column-extraction lemmas -/

theorem getColCells_length_of_mem {df : DF} {n : String} (h : n ∈ df.names) :
    (getColCells df n).length = df.rows.length := by
  rcases firstIdx_of_mem h with ⟨j, hj⟩
  simp [getColCells, hj]

theorem col_of_idxMap_normRow (rows : List (List Cell)) (L : Nat)
    (F : Nat → List Cell → Nat → Cell) (j : Nat) (hj : j < L) (vs : List Cell)
    (hlen : vs.length = rows.length)
    (hval : ∀ i r, F i r j = vs.getD i Cell.missing) :
    (idxMap (fun i r => normRow L (F i r)) 0 rows).map (fun r => getCell r j) = vs := by
  apply List.ext_getElem
  · simp [idxMap_length, hlen]
  · intro i h1 h2
    have hi : i < rows.length := by
      have := h1
      simp [idxMap_length] at this
      omega
    have e1 : ((idxMap (fun i r => normRow L (F i r)) 0 rows).map (fun r => getCell r j))[i]? =
        Option.map (fun r => getCell r j) ((idxMap (fun i r => normRow L (F i r)) 0 rows)[i]?) := by
      simp
    rw [idxMap_getElem?, List.getElem?_eq_getElem hi] at e1
    have e2 : ((idxMap (fun i r => normRow L (F i r)) 0 rows).map (fun r => getCell r j))[i]? =
        some (((idxMap (fun i r => normRow L (F i r)) 0 rows).map (fun r => getCell r j))[i]) :=
      List.getElem?_eq_getElem h1
    rw [e1] at e2
    simp only [Option.map_some'] at e2
    have e3 := Option.some.inj e2
    rw [← e3, getCell_normRow _ hj, hval]
    simp [List.getD_eq_getElem?_getD, List.getElem?_eq_getElem h2]

theorem getColCells_setColList_self (df : DF) (n : String) (vs : List Cell)
    (hlen : vs.length = df.rows.length) :
    getColCells (setColList df n vs) n = vs := by
  by_cases hmem : n ∈ df.names
  · rcases firstIdx_of_mem hmem with ⟨j0, hj0⟩
    have hj0lt : j0 < df.names.length := firstIdx_lt_length hj0
    have hname : df.names.getD j0 "" = n := firstIdx_getD hj0
    unfold setColList
    rw [if_pos hmem]
    simp only [getColCells]
    rw [hj0]
    exact col_of_idxMap_normRow df.rows df.names.length _ j0 hj0lt vs hlen
      (fun i r => by rw [if_pos hname])
  · unfold setColList
    rw [if_neg hmem]
    simp only [getColCells]
    rw [firstIdx_append_not_mem hmem]
    exact col_of_idxMap_normRow df.rows (df.names.length + 1) _ df.names.length
      (Nat.lt_succ_self _) vs hlen (fun i r => by simp)

theorem getColCells_setColConst_new (df : DF) (n : String) (v : Cell) (h : n ∉ df.names) :
    getColCells (setColConst df n v) n = List.replicate df.rows.length v := by
  unfold setColConst
  rw [if_neg h]
  simp only [getColCells]
  rw [firstIdx_append_not_mem h]
  have hcell : ∀ r : List Cell,
      getCell (normRow (df.names.length + 1)
        (fun j => if j = df.names.length then v else getCell r j)) df.names.length = v := by
    intro r
    rw [getCell_normRow _ (Nat.lt_succ_self _)]
    simp
  calc (df.rows.map (fun r => normRow (df.names.length + 1)
          (fun j => if j = df.names.length then v else getCell r j))).map
        (fun r => getCell r df.names.length)
      = df.rows.map (fun r => getCell (normRow (df.names.length + 1)
          (fun j => if j = df.names.length then v else getCell r j)) df.names.length) := by
        simp [List.map_map]
    _ = df.rows.map (fun _ => v) := List.map_congr_left (fun r _ => hcell r)
    _ = List.replicate df.rows.length v := by simp [List.map_const']

/-! ## Block-level lemmas for `process_treatment_block` -/

theorem ptbPost_rows_length (lines : List String) (df : DF) :
    (ptbPost lines df).rows.length = df.rows.length := by
  unfold ptbPost
  cases lines.find? (fun l => startsWithS (toUpperS (pyStrip l)) "TREATMENT") with
  | none =>
    simp only
    split
    · exact dropColsNamed_rows_length df "CR"
    · rfl
  | some tl =>
    simp only
    cases splitWs tl with
    | nil =>
      split
      · exact dropColsNamed_rows_length df "CR"
      · rfl
    | cons a rest =>
      cases rest with
      | nil =>
        split
        · exact dropColsNamed_rows_length df "CR"
        · rfl
      | cons t more =>
        split
        · rw [dropColsNamed_rows_length, setColConst_rows_length]
        · exact setColConst_rows_length df "TRT" (Cell.text t)

theorem ptbPost_no_CR (lines : List String) (df : DF) :
    "CR" ∉ (ptbPost lines df).names := by
  unfold ptbPost
  cases lines.find? (fun l => startsWithS (toUpperS (pyStrip l)) "TREATMENT") with
  | none =>
    simp only
    split
    · exact not_mem_dropColsNamed df "CR"
    · assumption
  | some tl =>
    simp only
    cases splitWs tl with
    | nil =>
      split
      · exact not_mem_dropColsNamed df "CR"
      · assumption
    | cons a rest =>
      cases rest with
      | nil =>
        split
        · exact not_mem_dropColsNamed df "CR"
        · assumption
      | cons t more =>
        split
        · exact not_mem_dropColsNamed _ "CR"
        · assumption

theorem ptb_some_rows_length {b : List String} {d : DF}
    (h : process_treatment_block b = some d) : d.rows.length = blockKept b := by
  unfold process_treatment_block at h
  unfold blockKept
  cases hf : findIdxO (fun l => startsWithS l "@") b with
  | none => rw [hf] at h; cases h
  | some hIdx =>
    simp only [hf] at h
    by_cases he : ((ptbKept b hIdx).map
        (fun l => reconcile (ptbHeaders b hIdx) (splitWs l))).isEmpty = true
    · rw [if_pos he] at h
      cases h
    · rw [if_neg he] at h
      cases h
      rw [ptbPost_rows_length]
      simp [ptbKept]

theorem ptb_none_blockKept {b : List String} (h : process_treatment_block b = none) :
    blockKept b = 0 := by
  unfold process_treatment_block at h
  unfold blockKept
  cases hf : findIdxO (fun l => startsWithS l "@") b with
  | none => rfl
  | some hIdx =>
    simp only [hf] at h
    by_cases he : ((ptbKept b hIdx).map
        (fun l => reconcile (ptbHeaders b hIdx) (splitWs l))).isEmpty = true
    · rw [List.isEmpty_iff, List.map_eq_nil_iff] at he
      simp only [ptbKept] at he
      simp [he]
    · rw [if_neg he] at h
      cases h

theorem fileDfs_sum_rows (lines : List String) :
    ((fileDfs lines).map (fun d => d.rows.length)).sum = codeKeptCount lines := by
  unfold fileDfs codeKeptCount
  induction fileBlocks lines with
  | nil => rfl
  | cons b bs ih =>
    cases hb : process_treatment_block b with
    | none =>
      simp only [List.filterMap_cons, hb, List.map_cons, List.sum_cons]
      rw [ih, ptb_none_blockKept hb]
      omega
    | some d =>
      simp only [List.filterMap_cons, hb, List.map_cons, List.sum_cons]
      rw [ih, ptb_some_rows_length hb]

theorem ptb_some_no_CR {b : List String} {d : DF}
    (h : process_treatment_block b = some d) : "CR" ∉ d.names := by
  unfold process_treatment_block at h
  cases hf : findIdxO (fun l => startsWithS l "@") b with
  | none => rw [hf] at h; cases h
  | some hIdx =>
    simp only [hf] at h
    by_cases he : ((ptbKept b hIdx).map
        (fun l => reconcile (ptbHeaders b hIdx) (splitWs l))).isEmpty = true
    · rw [if_pos he] at h
      cases h
    · rw [if_neg he] at h
      cases h
      exact ptbPost_no_CR b _

theorem reconcile_length (headers values : List String) :
    (reconcile headers values).length = headers.length := by
  unfold reconcile
  split
  · next hgt => simp [List.length_take]; omega
  · next hle => simp; omega

theorem reconcileForage_length (headers values : List String) :
    (reconcileForage headers values).length = headers.length := by
  unfold reconcileForage
  split
  · next hgt => simp [List.length_take]; omega
  · next hle => simp; omega

theorem ensureTRT_mem_TRT (df : DF) : "TRT" ∈ (ensureTRT df).names := by
  unfold ensureTRT
  split_ifs with h1 h2 h3
  · exact h1
  · exact mem_setColList_names df "TRT" _
  · exact mem_setColList_names df "TRT" _
  · exact mem_setColConst_names df "TRT" _

theorem replaceSentinel_not_sentinel (c : Cell) :
    isMissingSentinel (replaceSentinel c) = false := by
  unfold replaceSentinel
  by_cases h : isMissingSentinel c = true
  · rw [if_pos h]
    rfl
  · rw [if_neg h]
    simpa using h

theorem length_filterMap_isSome (f : α → Option β) (g : α → β → γ) :
    ∀ l : List α,
      (l.filterMap (fun a => (f a).map (g a))).length =
        (l.filter (fun a => (f a).isSome)).length
  | [] => rfl
  | a :: l => by
    cases hf : f a <;>
      simp [List.filterMap_cons, List.filter_cons, hf, length_filterMap_isSome f g l]

theorem idxMap_getD (f : Nat → α → β) {l : List α} {j : Nat} (h : j < l.length)
    (d : β) (d' : α) : (idxMap f 0 l).getD j d = f j (l.getD j d') := by
  rw [List.getD_eq_getElem?_getD, idxMap_getElem? f 0 l j, List.getElem?_eq_getElem h,
    List.getD_eq_getElem?_getD, List.getElem?_eq_getElem h]
  simp

theorem getColCells_colWise {df : DF} {n : String} {j0 : Nat}
    (f : String → List Cell → List Cell) (hj : firstIdx df.names n = some j0) :
    getColCells (colWise df f) n =
      (List.range df.rows.length).map
        (fun i => getCell (f n (df.rows.map (fun r => getCell r j0))) i) := by
  have hj0lt : j0 < df.names.length := firstIdx_lt_length hj
  have hname : df.names.getD j0 "" = n := firstIdx_getD hj
  unfold colWise getColCells
  simp only [hj]
  rw [List.map_map]
  apply List.map_congr_left
  intro i _
  simp only [Function.comp]
  rw [getCell_normRow _ hj0lt]
  rw [idxMap_getD _ hj0lt [] ""]
  rw [hname]

theorem observedDateStage_rows {df : DF} {j : Nat} (hj : firstIdx df.names "DATE" = some j) :
    (observedDateStage df).rows.length =
      (df.rows.filter
        (fun r => (unified_date_convert (cellRender (getCell r j))).isSome)).length := by
  unfold observedDateStage
  simp only [hj]
  exact length_filterMap_isSome (fun r => unified_date_convert (cellRender (getCell r j)))
    (fun r d => normRow df.names.length
      (fun k => if k = j then Cell.text (renderISO d) else getCell r k)) df.rows

theorem observedDateStage_date_cells {df : DF} {j : Nat}
    (hj : firstIdx df.names "DATE" = some j) :
    ∀ c ∈ getColCells (observedDateStage df) "DATE", ∃ d, c = Cell.text (renderISO d) := by
  have hjlt : j < df.names.length := firstIdx_lt_length hj
  intro c hc
  unfold observedDateStage at hc
  simp only [hj] at hc
  unfold getColCells at hc
  simp only [hj] at hc
  rcases List.mem_map.mp hc with ⟨r', hr', rfl⟩
  rcases List.mem_filterMap.mp hr' with ⟨r, _, hconv⟩
  cases hcv : unified_date_convert (cellRender (getCell r j)) with
  | none => rw [hcv] at hconv; cases hconv
  | some d =>
    rw [hcv] at hconv
    cases hconv
    refine ⟨d, ?_⟩
    rw [getCell_normRow _ hjlt]
    simp

theorem observedAliasToStr_text {df : DF} {n : String} (ha : n ∈ trtAliases)
    (hmem : n ∈ df.names) :
    ∀ c ∈ getColCells (observedAliasToStr df) n, ∃ s, c = Cell.text s := by
  rcases firstIdx_of_mem hmem with ⟨j0, hj0⟩
  intro c hc
  unfold observedAliasToStr at hc
  rw [getColCells_colWise _ hj0] at hc
  rcases List.mem_map.mp hc with ⟨i, hi, rfl⟩
  have hi' : i < df.rows.length := List.mem_range.mp hi
  rw [if_pos ha]
  have hi2 : i < ((df.rows.map (fun r => getCell r j0)).map
      (fun c => Cell.text (cellRender c))).length := by
    simpa using hi'
  rw [getCell, List.getD_eq_getElem?_getD, List.getElem?_eq_getElem hi2]
  rw [List.getElem_map]
  exact ⟨_, rfl⟩

/-- The combined effect on one column label of the three successive
renames of `read_observed_data` (lines 525-527). -/
def aliasRename (n : String) : String :=
  if n = "TRNO" ∨ n = "TR" ∨ n = "TN" then "TRT" else n

theorem renameAliasesToTRT_names (df : DF) :
    (renameAliasesToTRT df).names = df.names.map aliasRename := by
  unfold renameAliasesToTRT renameCol
  simp only [List.map_map]
  apply List.map_congr_left
  intro n _
  simp only [Function.comp]
  unfold aliasRename
  by_cases h1 : n = "TRNO"
  · subst h1
    decide
  · by_cases h2 : n = "TR"
    · subst h2
      decide
    · by_cases h3 : n = "TN"
      · subst h3
        decide
      · rw [if_neg h1, if_neg h2, if_neg h3, if_neg (by tauto)]

theorem observedAliasToStr_names (df : DF) : (observedAliasToStr df).names = df.names := rfl

theorem observedDateStage_names (df : DF) : (observedDateStage df).names = df.names := by
  unfold observedDateStage
  cases firstIdx df.names "DATE" <;> rfl

theorem observedStage_names (df : DF) :
    (observedStage df).names = (dropAllMissingCols (renameAliasesToTRT df)).names := by
  unfold observedStage
  rw [observedAliasToStr_names, observedDateStage_names, standardize_dtypes_names]

theorem dropAllMissingCols_names_nodup {df : DF} (h : df.names.Nodup) :
    (dropAllMissingCols df).names.Nodup :=
  List.Nodup.sublist (maskList_sublist _ _) h

theorem mem_trtAliases_of_or {x : String} (h : x = "TRNO" ∨ x = "TR" ∨ x = "TN") :
    x ∈ trtAliases := by
  rcases h with h | h | h <;> simp [h, trtAliases]

theorem nodup_map_aliasRename {H : List String} (hnd : H.Nodup)
    (hcount : (H.filter (fun n => decide (n ∈ trtAliases))).length ≤ 1) :
    (H.map aliasRename).Nodup := by
  refine List.Nodup.map_on ?_ hnd
  intro x hx y hy hxy
  by_contra hne
  have key : x ∈ trtAliases ∧ y ∈ trtAliases := by
    unfold aliasRename at hxy
    by_cases px : x = "TRNO" ∨ x = "TR" ∨ x = "TN"
    · by_cases py : y = "TRNO" ∨ y = "TR" ∨ y = "TN"
      · exact ⟨mem_trtAliases_of_or px, mem_trtAliases_of_or py⟩
      · rw [if_pos px, if_neg py] at hxy
        refine ⟨mem_trtAliases_of_or px, ?_⟩
        rw [← hxy]
        simp [trtAliases]
    · by_cases py : y = "TRNO" ∨ y = "TR" ∨ y = "TN"
      · rw [if_neg px, if_pos py] at hxy
        refine ⟨?_, mem_trtAliases_of_or py⟩
        rw [hxy]
        simp [trtAliases]
      · rw [if_neg px, if_neg py] at hxy
        exact absurd hxy hne
  have hxf : x ∈ H.filter (fun n => decide (n ∈ trtAliases)) :=
    List.mem_filter.mpr ⟨hx, by simp [key.1]⟩
  have hyf : y ∈ H.filter (fun n => decide (n ∈ trtAliases)) :=
    List.mem_filter.mpr ⟨hy, by simp [key.2]⟩
  have hsub : ({x, y} : Finset String) ⊆
      (H.filter (fun n => decide (n ∈ trtAliases))).toFinset := by
    intro a ha
    rcases Finset.mem_insert.mp ha with rfl | ha
    · exact List.mem_toFinset.mpr hxf
    · rw [Finset.mem_singleton] at ha
      subst ha
      exact List.mem_toFinset.mpr hyf
  have hcard2 : ({x, y} : Finset String).card = 2 := by
    rw [Finset.card_insert_of_not_mem (by simpa using hne), Finset.card_singleton]
  have hle := Finset.card_le_card hsub
  have hfin := List.toFinset_card_le (H.filter (fun n => decide (n ∈ trtAliases)))
  omega

/-- The skip rule exactly as the specification states it (§4.3): a data
line is kept iff, after trimming, it is nonempty and does not start with
the comment marker.  Stated for comparison with `keepLine`, the rule the
code implements. -/
def specKeepLine (l : String) : Bool :=
  !(pyStrip l == "") && !(startsWithS (pyStrip l) "*")

/-! ## Claim theorems -/

/-- C1 counterexample: `read_file` parses a file with no treatment marker
into a table whose columns are exactly `A` and `B` — no `TRT` column is
synthesized in the generic output path, contradicting the claim that `TRT`
is always present after assembly for `read_file`. -/
theorem c1_counterexample :
    read_file_core ["@A B\n", " 1 2\n"] =
      some ⟨["A", "B"], [[Cell.num 1, Cell.num 2]]⟩ ∧
    "TRT" ∉ (["A", "B"] : List String) := by decide

/-- C1 (amended): `read_forage_file` always returns a table with a `TRT`
column, synthesized after assembly from `TRNO`, then `TR`, else the
constant string `"1"` for every row; `read_file` performs no such
synthesis, and its returned tables may lack a `TRT` column (the
counterexample's marker-free file is parsed into a table whose columns
are exactly `A` and `B`). -/
theorem c1_claim :
    (∀ (lines : List String) (df : DF), read_forage_core lines = some df →
      "TRT" ∈ df.names) ∧
    (∀ df : DF, "TRT" ∉ df.names → "TRNO" ∈ df.names →
      getColCells (ensureTRT df) "TRT" = getColCells df "TRNO") ∧
    (∀ df : DF, "TRT" ∉ df.names → "TRNO" ∉ df.names → "TR" ∈ df.names →
      getColCells (ensureTRT df) "TRT" = getColCells df "TR") ∧
    (∀ df : DF, "TRT" ∉ df.names → "TRNO" ∉ df.names → "TR" ∉ df.names →
      getColCells (ensureTRT df) "TRT" =
        List.replicate df.rows.length (Cell.text "1")) := by
  refine ⟨?_, ?_, ?_, ?_⟩
  · intro lines df h
    unfold read_forage_core at h
    by_cases h1 : (forageHeaderIdx lines).isEmpty = true
    · rw [if_pos h1] at h
      cases h
    · rw [if_neg h1] at h
      by_cases h2 : (forageDfs lines).isEmpty = true
      · rw [if_pos h2] at h
        cases h
      · rw [if_neg h2] at h
        cases hc : pdConcat (forageDfs lines) with
        | none => rw [hc] at h; cases h
        | some c =>
          simp only [hc] at h
          cases h
          exact mem_addDateColumn_names (ensureTRT_mem_TRT _)
  · intro df h1 h2
    unfold ensureTRT
    rw [if_neg h1, if_pos h2]
    exact getColCells_setColList_self df "TRT" _ (getColCells_length_of_mem h2)
  · intro df h1 h2 h3
    unfold ensureTRT
    rw [if_neg h1, if_neg h2, if_pos h3]
    exact getColCells_setColList_self df "TRT" _ (getColCells_length_of_mem h3)
  · intro df h1 h2 h3
    unfold ensureTRT
    rw [if_neg h1, if_neg h2, if_neg h3]
    exact getColCells_setColConst_new df "TRT" _ h1

/-- C1 witness: the amended theorem applied to a concrete forage file and a
concrete alias-free table. -/
theorem c1_witness :
    "TRT" ∈ (⟨["YEAR", "DOY", "X", "TRT", "DATE"],
      [[Cell.num 2023, Cell.num 45, Cell.num 7, Cell.text "1",
        Cell.date ⟨2023, 2, 14⟩]]⟩ : DF).names ∧
    getColCells (ensureTRT ⟨["A"], [[Cell.num 5]]⟩) "TRT" = [Cell.text "1"] :=
  ⟨c1_claim.1 ["@YEAR DOY X\n", " 2023 45 7\n"] _ (by decide),
   by
    have h := c1_claim.2.2.2 ⟨["A"], [[Cell.num 5]]⟩ (by decide) (by decide) (by decide)
    simpa using h⟩

/-- C2 counterexample: for the file `["@A B", " *1 2"]` the only data line
is trimmed-nonempty but its trimmed form starts with `*`, so the claim's
skip rule predicts zero rows; the code tests the untrimmed line and keeps
it, returning one row. -/
theorem c2_counterexample :
    (read_file_core ["@A B\n", " *1 2\n"]).map (fun d => d.rows.length) = some 1 ∧
    (["@A B\n", " *1 2\n"].drop 1).filter specKeepLine = [] ∧
    (1 : Nat) ≠ 0 := by decide

/-- C2 (amended): for every file `read_file` parses successfully, the row
count equals the number of kept data lines across the code's blocks, where
a line after a block's header is kept iff its trimmed form is nonempty and
the untrimmed line does not start with `*` (the comment test applies to
the raw line, not the trimmed one). -/
theorem c2_claim (lines : List String) (d : DF)
    (h : read_file_core lines = some d) : d.rows.length = codeKeptCount lines := by
  unfold read_file_core at h
  by_cases he : (fileDfs lines).isEmpty = true
  · rw [if_pos he] at h
    cases h
  · rw [if_neg he] at h
    cases hc : pdConcat (fileDfs lines) with
    | none => rw [hc] at h; cases h
    | some c =>
      simp only [hc] at h
      cases h
      rw [addDateColumn_rows_length, standardize_dtypes_rows_length,
        dropAllMissingCols_rows_length, pdConcat_rows_length hc, fileDfs_sum_rows]

/-- C2 witness: the amended theorem at a concrete file with a blank line
and a comment line, whose single kept data line gives one row. -/
theorem c2_witness :
    (⟨["A", "B"], [[Cell.num 1, Cell.num 2]]⟩ : DF).rows.length =
      codeKeptCount ["@A B\n", " 1 2\n", "\n", "*note\n"] :=
  c2_claim ["@A B\n", " 1 2\n", "\n", "*note\n"] _ (by decide)

/-- C3: row reconciliation in both the generic and the forage paths always
yields exactly header-count entries for every token list (in particular
for every count from 0 up to twice the header count): excess trailing
tokens are discarded, deficits are right-padded with missing placeholders;
the reconciliation is a total function of the line, hence deterministic
and never raising. -/
theorem c3_claim (headers values : List String) :
    (reconcile headers values).length = headers.length ∧
    (reconcileForage headers values).length = headers.length ∧
    (values.length > headers.length →
      reconcile headers values = (values.take headers.length).map Cell.text) ∧
    (values.length ≤ headers.length →
      reconcile headers values =
        values.map Cell.text ++
          List.replicate (headers.length - values.length) Cell.missing) := by
  refine ⟨reconcile_length headers values, reconcileForage_length headers values, ?_, ?_⟩
  · intro hgt
    unfold reconcile
    rw [if_pos hgt]
  · intro hle
    unfold reconcile
    rw [if_neg (by omega)]

/-- C3 witness: the §8 scenario — a row with 5 tokens against a 7-column
header is reconciled to 7 entries, the last 2 missing; 4 tokens against 2
headers are truncated to the first 2. -/
theorem c3_witness :
    (reconcile ["A", "B", "C", "D", "E", "F", "G"] ["1", "2", "3", "4", "5"]).length = 7 ∧
    reconcile ["A", "B", "C", "D", "E", "F", "G"] ["1", "2", "3", "4", "5"] =
      [Cell.text "1", Cell.text "2", Cell.text "3", Cell.text "4", Cell.text "5",
       Cell.missing, Cell.missing] ∧
    reconcile ["A", "B"] ["1", "2", "3", "4"] = [Cell.text "1", Cell.text "2"] := by
  refine ⟨(c3_claim ["A", "B", "C", "D", "E", "F", "G"] ["1", "2", "3", "4", "5"]).1, ?_, ?_⟩
  · have h := (c3_claim ["A", "B", "C", "D", "E", "F", "G"]
      ["1", "2", "3", "4", "5"]).2.2.2 (by decide)
    rw [h]
    decide
  · have h := (c3_claim ["A", "B"] ["1", "2", "3", "4"]).2.2.1 (by decide)
    rw [h]
    decide

/-- C8 counterexample: for a file that exists, fails to decode under the
primary encoding and decodes under latin-1 into a valid treatment section,
`read_treatments` returns `None` after attempting only the single default
encoding — no fallback retry happens, contradicting the claim's
one-retry-with-fallback clause for `read_treatments`. -/
theorem c8_counterexample :
    read_treatments_fs ⟨true, fun e => match e with
      | Enc.utf8 => ReadOutcome.decodeErr
      | Enc.latin1 => ReadOutcome.ok ["*TREATMENTS\n", " 1       N TRIAL\n"]⟩ = none ∧
    read_treatments_attempts ⟨true, fun e => match e with
      | Enc.utf8 => ReadOutcome.decodeErr
      | Enc.latin1 => ReadOutcome.ok ["*TREATMENTS\n", " 1       N TRIAL\n"]⟩ = [Enc.utf8] ∧
    (read_treatments_core ["*TREATMENTS\n", " 1       N TRIAL\n"]).isSome = true := by
  decide

/-- C8 (amended): both readers return `None` for a missing path before any
read attempt and report every read failure as `None` with no partial data;
`read_file` retries exactly once with the latin-1 fallback after a decode
failure of utf-8 and yields `None` when both decodes fail or any other
error occurs; `read_treatments`, by contrast, opens the file once with the
default encoding and never retries — its decode failures become `None`
directly. -/
theorem c8_claim (fs : FS) :
    (fs.present = false → read_file_fs fs = none ∧ read_file_attempts fs = [] ∧
      read_treatments_fs fs = none ∧ read_treatments_attempts fs = []) ∧
    (fs.present = true → fs.read Enc.utf8 = ReadOutcome.decodeErr →
      read_file_attempts fs = [Enc.utf8, Enc.latin1]) ∧
    (fs.present = true → fs.read Enc.utf8 = ReadOutcome.decodeErr →
      fs.read Enc.latin1 = ReadOutcome.decodeErr → read_file_fs fs = none) ∧
    (fs.present = true → fs.read Enc.utf8 = ReadOutcome.otherErr →
      read_file_fs fs = none) ∧
    (fs.present = true → fs.read Enc.utf8 = ReadOutcome.decodeErr →
      fs.read Enc.latin1 = ReadOutcome.otherErr → read_file_fs fs = none) ∧
    (read_treatments_attempts fs).length ≤ 1 ∧
    (fs.present = true → fs.read Enc.utf8 = ReadOutcome.decodeErr →
      read_treatments_fs fs = none) := by
  refine ⟨fun hp => ?_, fun hp hu => ?_, fun hp hu hl => ?_, fun hp hu => ?_,
    fun hp hu hl => ?_, ?_, fun hp hu => ?_⟩
  · simp [read_file_fs, read_file_attempts, read_treatments_fs, read_treatments_attempts, hp]
  · simp [read_file_attempts, hp, hu]
  · simp [read_file_fs, hp, hu, hl]
  · simp [read_file_fs, hp, hu]
  · simp [read_file_fs, hp, hu, hl]
  · unfold read_treatments_attempts
    split <;> simp
  · simp [read_treatments_fs, hp, hu]

/-- C8 witness: the amended theorem at a missing file and at a file that
fails to decode under both encodings. -/
theorem c8_witness :
    read_file_fs ⟨false, fun _ => ReadOutcome.otherErr⟩ = none ∧
    read_file_attempts ⟨false, fun _ => ReadOutcome.otherErr⟩ = [] ∧
    read_file_attempts ⟨true, fun _ => ReadOutcome.decodeErr⟩ = [Enc.utf8, Enc.latin1] ∧
    read_file_fs ⟨true, fun _ => ReadOutcome.decodeErr⟩ = none := by
  have h1 := (c8_claim ⟨false, fun _ => ReadOutcome.otherErr⟩).1 rfl
  have h2 := (c8_claim ⟨true, fun _ => ReadOutcome.decodeErr⟩).2.1 rfl rfl
  have h3 := (c8_claim ⟨true, fun _ => ReadOutcome.decodeErr⟩).2.2.1 rfl rfl rfl
  exact ⟨h1.1, h1.2.1, h2, h3⟩

/-- C9 counterexample: the string form of `-99.99` is not a member of
`MISSING_VALUES` (the set holds the numeric `-99.99` but only the string
forms of `-99`, `-99.0` and `-99.9`). -/
theorem c9_counterexample :
    isMissingSentinel (Cell.text "-99.99") = false ∧
    isMissingSentinel (Cell.num (mkRat (-9999) 100)) = true := by decide

/-- C9 (amended): the sentinel set holds the numeric values -99 (= -99.0 =
-99.), -99.9 and -99.99, and the string forms of -99, -99.0 and -99.9 only
(not the string form of -99.99); the numeric stage of `read_evaluate_file`
coerces every cell to numeric and replaces every sentinel-valued cell with
a missing value, so no sentinel survives in its output. -/
theorem c9_claim :
    (∀ q : ℚ, isMissingSentinel (Cell.num q) = true ↔
      (q = -99 ∨ q = mkRat (-999) 10 ∨ q = mkRat (-9999) 100)) ∧
    (∀ s : String, isMissingSentinel (Cell.text s) = true ↔
      (s = "-99" ∨ s = "-99.0" ∨ s = "-99.9")) ∧
    (∀ df : DF, ∀ r ∈ (evaluate_numeric_stage df).rows, ∀ c ∈ r,
      isMissingSentinel c = false) := by
  refine ⟨?_, ?_, ?_⟩
  · intro q
    simp [isMissingSentinel, numSentinels, List.contains_cons, beq_iff_eq]
  · intro s
    simp [isMissingSentinel, strSentinels, List.contains_cons, beq_iff_eq]
  · intro df r hr c hc
    unfold evaluate_numeric_stage mapTable at hr
    rcases List.mem_map.mp hr with ⟨r0, _, rfl⟩
    unfold normRow at hc
    rcases List.mem_map.mp hc with ⟨j, _, rfl⟩
    exact replaceSentinel_not_sentinel _

/-- C9 witness: the amended theorem at the value -99 and at a concrete
one-cell table holding the text sentinel "-99", whose surviving cell is
missing. -/
theorem c9_witness :
    isMissingSentinel (Cell.num (-99 : ℚ)) = true ∧
    isMissingSentinel Cell.missing = false :=
  ⟨(c9_claim.1 (-99 : ℚ)).mpr (Or.inl rfl),
   c9_claim.2.2 ⟨["X"], [[Cell.text "-99"]]⟩ [Cell.missing] (by decide)
     Cell.missing (by decide)⟩

/-- C10: a `CR` column appearing in a block's header is removed before
assembly, so no table returned by `process_treatment_block` or by
`read_file` contains a `CR` column. -/
theorem c10_claim :
    (∀ (b : List String) (d : DF), process_treatment_block b = some d →
      "CR" ∉ d.names) ∧
    (∀ (lines : List String) (d : DF), read_file_core lines = some d →
      "CR" ∉ d.names) := by
  refine ⟨fun b d h => ptb_some_no_CR h, ?_⟩
  intro lines d h hmem
  unfold read_file_core at h
  by_cases he : (fileDfs lines).isEmpty = true
  · rw [if_pos he] at h
    cases h
  · rw [if_neg he] at h
    cases hc : pdConcat (fileDfs lines) with
    | none => rw [hc] at h; cases h
    | some c =>
      simp only [hc] at h
      cases h
      rcases mem_of_mem_addDateColumn_names hmem with hmem' | hmem'
      · rw [standardize_dtypes_names] at hmem'
        have hcr : "CR" ∈ c.names := mem_dropAllMissingCols_names hmem'
        rcases pdConcat_names_mem hc hcr with ⟨e, he', hne⟩
        rcases List.mem_filterMap.mp he' with ⟨b, _, hb⟩
        exact ptb_some_no_CR hb hne
      · exact absurd hmem' (by decide)

/-- C4: whenever both `YEAR` and `DOY` columns exist, the generic output
paths (`read_file` and `read_forage_file`, both of which end in
`addDateColumn`) derive a `DATE` column cell-wise over the paired columns
by the zero-padded `%Y%j` ordinal convention, preserving the row count
(an invalid ordinal becomes a missing cell, the row is kept); for
YEAR=2023, DOY=45 the derived date is 2023-02-14, and DOY=366 in the
non-leap year 2023 yields a missing `DATE` cell. -/
theorem c4_claim :
    (∀ df : DF, "YEAR" ∈ df.names → "DOY" ∈ df.names →
      "DATE" ∈ (addDateColumn df).names ∧
      (addDateColumn df).rows.length = df.rows.length ∧
      getColCells (addDateColumn df) "DATE" =
        (List.zip (getColCells df "YEAR") (getColCells df "DOY")).map
          (fun p => deriveDateCell p.1 p.2)) ∧
    deriveDateCell (Cell.num 2023) (Cell.num 45) = Cell.date ⟨2023, 2, 14⟩ ∧
    deriveDateCell (Cell.num 2023) (Cell.num 366) = Cell.missing := by
  refine ⟨?_, by decide, by decide⟩
  intro df hy hd
  have hly := getColCells_length_of_mem hy
  have hld := getColCells_length_of_mem hd
  have hlen : ((List.zip (getColCells df "YEAR") (getColCells df "DOY")).map
      (fun p => deriveDateCell p.1 p.2)).length = df.rows.length := by
    simp [List.length_zip, hly, hld]
  unfold addDateColumn
  rw [if_pos (by simp [hy, hd])]
  exact ⟨mem_setColList_names df "DATE" _, setColList_rows_length df "DATE" _,
    getColCells_setColList_self df "DATE" _ hlen⟩

/-- C4 witness: the theorem at a concrete standardized table holding the
two scenario rows (DOY 45 and DOY 366 of 2023). -/
theorem c4_witness :
    "DATE" ∈ (addDateColumn ⟨["YEAR", "DOY"],
      [[Cell.num 2023, Cell.num 45], [Cell.num 2023, Cell.num 366]]⟩).names ∧
    (addDateColumn ⟨["YEAR", "DOY"],
      [[Cell.num 2023, Cell.num 45], [Cell.num 2023, Cell.num 366]]⟩).rows.length = 2 ∧
    getColCells (addDateColumn ⟨["YEAR", "DOY"],
      [[Cell.num 2023, Cell.num 45], [Cell.num 2023, Cell.num 366]]⟩) "DATE" =
      [Cell.date ⟨2023, 2, 14⟩, Cell.missing] := by
  have h := c4_claim.1 ⟨["YEAR", "DOY"],
    [[Cell.num 2023, Cell.num 45], [Cell.num 2023, Cell.num 366]]⟩ (by decide) (by decide)
  refine ⟨h.1, ?_, ?_⟩
  · rw [h.2.1]
    rfl
  · rw [h.2.2]
    decide

/-- C5: in the observed-data path, the date stage rewrites the `DATE`
column to canonical `YYYY-MM-DD` text and keeps exactly the rows whose
date string converts (rows with failed parses are dropped); the
treatment-alias columns among TRNO, TRT, TR, TN that are present are
coerced to text cells; and the generic output path's date derivation
(`addDateColumn`) never drops a row, so the dropping is specific to the
observed path.  (`unified_date_convert` and `standardize_dtypes` live in
`data/data_processing.py`, absent from `src/`, and are modelled from the
spec.) -/
theorem c5_claim :
    (∀ (df : DF) (j : Nat), firstIdx df.names "DATE" = some j →
      (observedDateStage df).rows.length =
        (df.rows.filter
          (fun r => (unified_date_convert (cellRender (getCell r j))).isSome)).length) ∧
    (∀ (df : DF) (j : Nat), firstIdx df.names "DATE" = some j →
      ∀ c ∈ getColCells (observedDateStage df) "DATE", ∃ d, c = Cell.text (renderISO d)) ∧
    (∀ (df : DF) (n : String), n ∈ trtAliases → n ∈ df.names →
      ∀ c ∈ getColCells (observedAliasToStr df) n, ∃ s, c = Cell.text s) ∧
    (∀ df : DF, (addDateColumn df).rows.length = df.rows.length) :=
  ⟨fun _ _ hj => observedDateStage_rows hj,
   fun _ _ hj => observedDateStage_date_cells hj,
   fun _ _ ha hm => observedAliasToStr_text ha hm,
   fun df => addDateColumn_rows_length df⟩

/-- C5 witness: the theorem at a concrete observed table whose second row
has the unparseable date "23999" (dropped), whose first date renders as
2023-02-14, and whose TRT column is coerced to text. -/
theorem c5_witness :
    (observedDateStage ⟨["TRT", "DATE"],
      [[Cell.text "1", Cell.text "23045"], [Cell.text "2", Cell.text "23999"]]⟩).rows.length =
      ((⟨["TRT", "DATE"],
        [[Cell.text "1", Cell.text "23045"], [Cell.text "2", Cell.text "23999"]]⟩ : DF).rows.filter
          (fun r => (unified_date_convert (cellRender (getCell r 1))).isSome)).length ∧
    (∃ d, Cell.text "2023-02-14" = Cell.text (renderISO d)) ∧
    (∃ s, Cell.text "1" = Cell.text s) ∧
    (addDateColumn ⟨["TRT", "DATE"],
      [[Cell.text "1", Cell.text "23045"], [Cell.text "2", Cell.text "23999"]]⟩).rows.length =
      (⟨["TRT", "DATE"],
        [[Cell.text "1", Cell.text "23045"], [Cell.text "2", Cell.text "23999"]]⟩ : DF).rows.length :=
  ⟨c5_claim.1 ⟨["TRT", "DATE"],
      [[Cell.text "1", Cell.text "23045"], [Cell.text "2", Cell.text "23999"]]⟩ 1 (by decide),
   c5_claim.2.1 ⟨["TRT", "DATE"],
      [[Cell.text "1", Cell.text "23045"], [Cell.text "2", Cell.text "23999"]]⟩ 1 (by decide)
     (Cell.text "2023-02-14") (by decide),
   c5_claim.2.2.1 ⟨["TRT", "DATE"],
      [[Cell.text "1", Cell.text "23045"], [Cell.text "2", Cell.text "23999"]]⟩ "TRT"
     (by decide) (by decide) (Cell.text "1") (by decide),
   c5_claim.2.2.2 ⟨["TRT", "DATE"],
      [[Cell.text "1", Cell.text "23045"], [Cell.text "2", Cell.text "23999"]]⟩⟩

/-- C6 counterexample: on the claim's own scenario row `"  1  NITROGEN
TRIAL"` the name slice `[9:36]` yields `"OGEN TRIAL"`, not `"NITROGEN
TRIAL"` — in that row the name starts at character 5, not 9. -/
theorem c6_counterexample :
    read_treatments_core
        ["*TREATMENTS -- FACTOR LEVELS\n", "  1  NITROGEN TRIAL\n", "*CULTIVARS\n"] =
      some ⟨["TR", "TNAME"], [[Cell.text "1", Cell.text "OGEN TRIAL"]]⟩ ∧
    "OGEN TRIAL" ≠ "NITROGEN TRIAL" := by decide

/-- C6 (amended): within the `*TREATMENT`-to-next-`*` section, every kept
record comes from a line starting with a space, with the number the
stripped characters `[0:3]` and the name the stripped characters `[9:36]`
of that line; the scenario row `"  1  NITROGEN TRIAL"` therefore yields
number "1" and name "OGEN TRIAL", while a row whose name field starts at
column 9, `"  1      NITROGEN TRIAL"`, yields "NITROGEN TRIAL". -/
theorem c6_claim :
    (∀ (lines : List String) (df : DF), read_treatments_core lines = some df →
      df.names = ["TR", "TNAME"] ∧
      ∀ r ∈ df.rows, ∃ l, l ∈ lines ∧ startsWithS l " " = true ∧
        r = [Cell.text (pyStrip (pySlice l 0 3)), Cell.text (pyStrip (pySlice l 9 36))]) ∧
    read_treatments_core ["*TREATMENTS\n", "  1      NITROGEN TRIAL\n", "*CULTIVARS\n"] =
      some ⟨["TR", "TNAME"], [[Cell.text "1", Cell.text "NITROGEN TRIAL"]]⟩ := by
  refine ⟨?_, by decide⟩
  intro lines df h
  unfold read_treatments_core at h
  cases hf : findIdxO (fun l => startsWithS l "*TREATMENT") lines with
  | none => rw [hf] at h; cases h
  | some b =>
    simp only [hf] at h
    cases h
    refine ⟨rfl, ?_⟩
    intro r hr
    rcases List.mem_map.mp hr with ⟨l, hl, rfl⟩
    have h1 := List.mem_filter.mp hl
    refine ⟨l, ?_, h1.2, rfl⟩
    exact List.drop_subset _ _ (List.take_subset _ _ h1.1)

/-- C6 witness: the amended theorem applied to the scenario file. -/
theorem c6_witness :
    (⟨["TR", "TNAME"], [[Cell.text "1", Cell.text "OGEN TRIAL"]]⟩ : DF).names =
      ["TR", "TNAME"] ∧
    ∃ l, l ∈ ["*TREATMENTS -- FACTOR LEVELS\n", "  1  NITROGEN TRIAL\n", "*CULTIVARS\n"] ∧
      startsWithS l " " = true ∧
      [Cell.text "1", Cell.text "OGEN TRIAL"] =
        [Cell.text (pyStrip (pySlice l 0 3)), Cell.text (pyStrip (pySlice l 9 36))] := by
  have h := c6_claim.1
    ["*TREATMENTS -- FACTOR LEVELS\n", "  1  NITROGEN TRIAL\n", "*CULTIVARS\n"]
    ⟨["TR", "TNAME"], [[Cell.text "1", Cell.text "OGEN TRIAL"]]⟩ (by decide)
  exact ⟨h.1, h.2 [Cell.text "1", Cell.text "OGEN TRIAL"] (by decide)⟩

/-- C7 counterexample: an observed-data header with both `TRNO` and `TR`
yields a returned table with two columns named `TRT` — the renames to the
common name `TRT` create duplicate labels, so uniqueness fails. -/
theorem c7_counterexample :
    read_observed_core ["@TRNO TR X\n", " 1 2 3\n"] =
      some ⟨["TRT", "TRT", "X"], [[Cell.text "1", Cell.text "2", Cell.num 3]]⟩ ∧
    ¬ (["TRT", "TRT", "X"] : List String).Nodup := by decide

/-- C7 (amended): a table returned by `read_observed_data` has unique
column names provided the parsed header tokens are distinct and contain at
most one of the alias labels TRNO, TRT, TR, TN; with two or more aliases
present the renames produce duplicate `TRT` columns. -/
theorem c7_claim (content : List String) (df : DF)
    (h : read_observed_core content = some df)
    (hnd : (observedHeaders content).Nodup)
    (hcount : ((observedHeaders content).filter
      (fun n => decide (n ∈ trtAliases))).length ≤ 1) :
    df.names.Nodup := by
  unfold read_observed_core at h
  cases hf : findIdxO (fun l => startsWithS (pyStrip l) "@") content with
  | none => rw [hf] at h; cases h
  | some hIdx =>
    simp only [hf] at h
    by_cases h1 : (observedRawRows content hIdx).isEmpty = true
    · rw [if_pos h1] at h
      cases h
    · rw [if_neg h1] at h
      by_cases h2 : ((observedRawRows content hIdx).map List.length).foldl max 0 ≠
          (observedHeadersAt content hIdx).length
      · rw [if_pos h2] at h
        cases h
      · rw [if_neg h2] at h
        by_cases h3 : "TRT" ∈ (observedStage (observedBuild content hIdx)).names
        · rw [if_pos h3] at h
          cases h
          have hH : observedHeaders content = observedHeadersAt content hIdx := by
            unfold observedHeaders
            rw [hf]
          rw [hH] at hnd hcount
          have hrn : (renameAliasesToTRT (observedBuild content hIdx)).names.Nodup := by
            rw [renameAliasesToTRT_names]
            exact nodup_map_aliasRename hnd hcount
          rw [observedStage_names]
          exact dropAllMissingCols_names_nodup hrn
        · rw [if_neg h3] at h
          cases h

/-- C7 witness: the amended theorem at a concrete observed file whose
header has the single alias `TRNO`. -/
theorem c7_witness :
    (⟨["TRT", "X"], [[Cell.text "1", Cell.num 2]]⟩ : DF).names.Nodup :=
  c7_claim ["@TRNO X\n", " 1 2\n"] _ (by decide) (by decide) (by decide)

/-- C10 witness: the theorem at a concrete file whose header holds a `CR`
column. -/
theorem c10_witness :
    "CR" ∉ (⟨["X"], [[Cell.text "1"]]⟩ : DF).names ∧
    "CR" ∉ (⟨["X"], [[Cell.num 1]]⟩ : DF).names :=
  ⟨c10_claim.1 ["@X CR\n", " 1 MZ\n"] _ (by decide),
   c10_claim.2 ["@X CR\n", " 1 MZ\n"] _ (by decide)⟩

end DSSAT
